import Mathlib

/-
Verification of the wind-level spatial query engine (src/src/utils.py,
src/src/geo_query.py, src/src/main.py) against its specification.

Modelling conventions for the shallow embedding:

* Python floats are modelled as rationals (ℚ); `round(x, n)` is modelled as
  round-half-to-even on ℚ (`roundTo`).
* The external geometry/projection libraries (shapely, pyproj, geopandas) are
  not part of this repository.  Their primitives are abstracted into a
  `GeoLib` structure: an opaque geometry type together with the operations the
  source calls (`is_valid`, `buffer(0)`, `intersects`, `distance`,
  `unary_union`, point/box constructors, the tiny point buffer
  `pt.buffer(1e-9)`, and per-geometry reprojection `toProj`).  A raised
  exception inside `gdf.to_crs(...)` / `pt_gdf.to_crs(...)` is modelled by
  `toProj` returning `none` (pyproj's `CRS.from_proj4` itself does not
  validate projection parameters, so CRS construction is modelled as total;
  the failure surfaces when the transformation is applied, which in the
  source is always inside a try/except).
* A GeoDataFrame row is a `Row`: a geometry plus the map of its non-geometry
  columns (`row.drop("geometry").to_dict()`), with scalar values modelled as
  integers.  `row.get("level")` / the `level` column is `levelAttr`, i.e. a
  lookup in that map; a feature without a usable level value yields `none`
  (this models both a missing property and a value dropped by `dropna`).
* `DataFrame.sort_values('level', ascending=False)` with the default
  `kind='quicksort'` is modelled after pandas' `nargsort`: argsort the
  non-NaN rows ascending (stable for the small candidate sets produced here,
  where numpy's introsort is a plain insertion sort), reverse that indexer,
  and append the NaN rows at the end (`na_position='last'`).
* File I/O (reading the GeoJSON/Parquet from disk, the YAML config, the
  process-wide cache) is outside the model: `load_wind_level_gdf` receives the
  parsed feature list, and the query functions receive the loaded store.

A concrete instance `QLib` (axis-aligned rational boxes with the Chebyshev
gap metric and a degenerate-aware projection) is used to evaluate the
embedded code on explicit inputs.
-/

/-- Abstraction of the external geometry/projection libraries used by the
source: the geometry type and the exact primitives the Python code calls. -/
structure GeoLib where
  G : Type
  is_valid : G → Bool
  buffer0 : G → G
  intersects : G → G → Bool
  distance : G → G → ℚ
  unary_union : List G → G
  mkPoint : ℚ → ℚ → G
  bufferEps : G → G
  mkBox : ℚ → ℚ → ℚ → ℚ → G
  toProj : ℚ → ℚ → G → Option G
  to4326 : G → G

/-- One GeoDataFrame row: a geometry plus its non-geometry columns
(`row.drop("geometry").to_dict()`), scalar-coerced. -/
structure Row (G : Type) where
  geom : G
  attrs : List (String × ℤ)
deriving DecidableEq

/-- The `level` column of a row (`row.get("level")`): `none` when the feature
carries no usable level value. -/
def levelAttr {G : Type} (r : Row G) : Option ℤ :=
  r.attrs.lookup "level"

/-- Sort key used by the `sort_values('level', ...)` model; rows with a
missing level are handled separately (na_position), so the default is
irrelevant there. -/
def levKey {G : Type} (r : Row G) : ℤ :=
  (levelAttr r).getD 0

/-- utils.convert_lon_to_360: `if lon < 0: return lon + 360; return lon`. -/
def convert_lon_to_360 (lon : ℚ) : ℚ :=
  if lon < 0 then lon + 360 else lon

/-- The non-None branch of utils.fix_invalid_geometry: return the geometry
unchanged if valid, else `geometry.buffer(0)`. -/
def fixG (L : GeoLib) (g : L.G) : L.G :=
  if L.is_valid g then g else L.buffer0 g

/-- utils.fix_invalid_geometry, including the `geometry is None` guard. -/
def fix_invalid_geometry (L : GeoLib) : Option L.G → Option L.G
  | none => none
  | some g => some (fixG L g)

/-- A parsed vector data source: its features and its declared CRS (as read
by geopandas; `none` models a source with no CRS metadata). -/
structure SourceData (G : Type) where
  rows : List (Row G)
  crs : Option String

/-- utils.load_wind_level_gdf on an already-parsed source: coerce the CRS to
EPSG:4326 (set it if absent, reproject if different), then repair every
geometry.  The source performs no check of the `level` attribute.  (Building
the spatial index has no observable effect on the store and is omitted;
unreadable/unparsable files are I/O failures outside the model.) -/
def load_wind_level_gdf (L : GeoLib) (src : SourceData L.G) : List (Row L.G) :=
  (if src.crs = none ∨ src.crs = some "EPSG:4326" then src.rows
   else src.rows.map (fun r => { r with geom := L.to4326 r.geom })).map
    (fun r => { r with geom := fixG L r.geom })

/-- The `matched_info` payload of a classification: the winning row's level
and its full property map. -/
structure MatchedInfo where
  level : Option ℤ
  properties : List (String × ℤ)
deriving DecidableEq

/-- Result of geo_query.query_point_level. -/
structure ClassResult where
  in_polygon : Bool
  level : Option ℤ
  matched_info : Option MatchedInfo
deriving DecidableEq

/-- One entry of the distance report of geo_query.query_level_min_distance. -/
structure LevelDistance where
  level : ℤ
  distance_km : ℚ
deriving DecidableEq

/-- Round-half-to-even to an integer (Python's `round` on exact values). -/
def roundHalfEven (q : ℚ) : ℤ :=
  if q - Int.floor q < 1/2 then Int.floor q
  else if 1/2 < q - Int.floor q then Int.floor q + 1
  else if Int.floor q % 2 = 0 then Int.floor q else Int.floor q + 1

/-- Python's `round(q, n)` on exact values. -/
def roundTo (q : ℚ) (n : ℕ) : ℚ :=
  (roundHalfEven (q * 10 ^ n) : ℚ) / 10 ^ n

/-- Projection of a list of geometries with the query-point-centered local
CRS (`gdf.to_crs(local_crs)` on the rows' geometry column): `none` models the
exception raised when any geometry fails to transform. -/
def projRows (L : GeoLib) (lon lat : ℚ) : List (Row L.G) → Option (List L.G)
  | [] => some []
  | r :: rs =>
    match L.toProj lon lat r.geom, projRows L lon lat rs with
    | some p, some ps => some (p :: ps)
    | _, _ => none

/-- geo_query.query_point_level, DIRECT phase: rows whose geometry intersects
the epsilon-buffered query point (`gdf[gdf.geometry.intersects(pt_buffer)]`). -/
def directContaining (L : GeoLib) (lon lat : ℚ) (rows : List (Row L.G)) : List (Row L.G) :=
  rows.filter (fun r => L.intersects r.geom (L.bufferEps (L.mkPoint lon lat)))

/-- geo_query.query_point_level, zero-match PROJECTED fallback: project the
whole store and the point into the local azimuthal-equidistant CRS, repair
the projected geometries, and keep the original rows whose projected distance
to the projected point is below the threshold.  A projection failure is
caught and yields no matches. -/
def fallbackContaining (L : GeoLib) (τ lon lat : ℚ) (rows : List (Row L.G)) : List (Row L.G) :=
  match projRows L lon lat rows, L.toProj lon lat (L.mkPoint lon lat) with
  | some gs, some ptP =>
    ((rows.zip (gs.map (fixG L))).filter (fun p => decide (L.distance ptP p.2 < τ))).map Prod.fst
  | _, _ => []

/-- The `containing` set of geo_query.query_point_level: the DIRECT matches,
or the PROJECTED fallback matches when DIRECT finds none. -/
def containingRows (L : GeoLib) (τ lon lat : ℚ) (rows : List (Row L.G)) : List (Row L.G) :=
  if (directContaining L lon lat rows).isEmpty then fallbackContaining L τ lon lat rows
  else directContaining L lon lat rows

/-- Model of `containing.sort_values('level', ascending=False)` (pandas
`nargsort` with default quicksort and `na_position='last'`): stable ascending
argsort of the non-NaN rows, indexer reversed, NaN rows appended last. -/
def sortValuesLevelDesc {G : Type} (l : List (Row G)) : List (Row G) :=
  (List.insertionSort (fun a b => levKey a ≤ levKey b)
      (l.filter (fun r => (levelAttr r).isSome))).reverse
    ++ l.filter (fun r => (levelAttr r).isNone)

/-- geo_query.query_point_level: classify the point, with the small-buffer
direct test, the boundary-distance fallback, and highest-level resolution of
multiple matches via the descending sort. -/
def query_point_level (L : GeoLib) (lon lat : ℚ) (rows : List (Row L.G)) (τ : ℚ) : ClassResult :=
  match containingRows L τ lon lat rows with
  | [] => ⟨false, none, none⟩
  | [r] => ⟨true, levelAttr r, some ⟨levelAttr r, r.attrs⟩⟩
  | r :: rs =>
    ⟨true, levelAttr ((sortValuesLevelDesc (r :: rs)).headD r),
      some ⟨levelAttr ((sortValuesLevelDesc (r :: rs)).headD r),
            ((sortValuesLevelDesc (r :: rs)).headD r).attrs⟩⟩

/-- `sorted(gdf['level'].dropna().unique())`: the distinct levels present in
the store, ascending. -/
def distinctLevels {G : Type} (rows : List (Row G)) : List ℤ :=
  List.insertionSort (fun a b => a ≤ b) (rows.filterMap levelAttr).dedup

/-- The radius bounding-box prefilter of geo_query.query_level_min_distance:
with a radius, keep the rows intersecting the box of half-width
`radius_km * 1.5 / 111` degrees around the point; without one, keep all. -/
def radiusFiltered (L : GeoLib) (lon lat : ℚ) (rows : List (Row L.G))
    (radius_km : Option ℚ) : List (Row L.G) :=
  match radius_km with
  | none => rows
  | some rk =>
    rows.filter (fun r => L.intersects r.geom
      (L.mkBox (lon - rk * (3/2) / 111) (lat - rk * (3/2) / 111)
               (lon + rk * (3/2) / 111) (lat + rk * (3/2) / 111)))

/-- One iteration of the level loop of geo_query.query_level_min_distance:
gather the level's candidate rows, project them and the point (skipping the
level on failure), repair, union, measure, apply the exact radius cutoff, and
round.  Returns `none` exactly when the loop body appends nothing. -/
def levelOutcome (L : GeoLib) (lon lat : ℚ) (filtered : List (Row L.G))
    (radius_m : Option ℚ) (dp : ℕ) (lv : ℤ) : Option LevelDistance :=
  if (filtered.filter (fun r => decide (levelAttr r = some lv))).isEmpty then none
  else
    match projRows L lon lat (filtered.filter (fun r => decide (levelAttr r = some lv))),
          L.toProj lon lat (L.mkPoint lon lat) with
    | some gs, some ptP =>
      match radius_m with
      | some rm =>
        if rm < L.distance ptP (L.unary_union (gs.map (fixG L))) then none
        else some ⟨lv, roundTo (L.distance ptP (L.unary_union (gs.map (fixG L))) / 1000) dp⟩
      | none => some ⟨lv, roundTo (L.distance ptP (L.unary_union (gs.map (fixG L))) / 1000) dp⟩
    | _, _ => none

/-- geo_query.query_level_min_distance: per distinct level (ascending), the
minimum distance from the point to the level's unioned regions, bounding-box
prefiltered and radius-cut when a radius is given. -/
def query_level_min_distance (L : GeoLib) (lon lat : ℚ) (rows : List (Row L.G))
    (radius_km : Option ℚ) (dp : ℕ) : List LevelDistance :=
  (distinctLevels rows).filterMap
    (levelOutcome L lon lat (radiusFiltered L lon lat rows radius_km)
      (radius_km.map (fun rk => rk * 1000)) dp)

/-- The combined response structure of geo_query.query_wind_level_info. -/
structure QueryResult where
  lon : ℚ
  lat : ℚ
  current_level : ClassResult
  level_distances : List LevelDistance
deriving DecidableEq

/-- geo_query.query_wind_level_info on a loaded store (the path-keyed cache
only memoizes loading and is outside the model). -/
def query_wind_level_info (L : GeoLib) (lon lat : ℚ) (rows : List (Row L.G))
    (radius_km : Option ℚ) (τ : ℚ) (dp : ℕ) : QueryResult :=
  ⟨lon, lat, query_point_level L lon lat rows τ, query_level_min_distance L lon lat rows radius_km dp⟩

/-- main.query_wind_level, restricted to its decision logic: normalize the
longitude to the 0–360 domain, then run the combined query.  (Config loading,
result persistence and plotting are I/O; no coordinate validation is
performed by the source.) -/
def query_wind_level (L : GeoLib) (lon lat : ℚ) (rows : List (Row L.G))
    (radius_km : Option ℚ) (τ : ℚ) (dp : ℕ) : QueryResult :=
  query_wind_level_info L (convert_lon_to_360 lon) lat rows radius_km τ dp

/-- The element of a list that a stable descending-by-key sort places first:
the last element attaining the maximum key.  Used to state the corrected
multi-match tie-break. -/
def lastMaxBy {α : Type} (key : α → ℤ) : List α → Option α
  | [] => none
  | x :: xs =>
    match lastMaxBy key xs with
    | none => some x
    | some w => if key w < key x then some x else some w

/-- Concrete geometry for evaluating the embedding: axis-aligned rational
boxes. -/
structure QBox where
  x1 : ℚ
  y1 : ℚ
  x2 : ℚ
  y2 : ℚ
deriving DecidableEq

/-- A box is valid when its corners are ordered. -/
def qvalid (b : QBox) : Bool :=
  decide (b.x1 ≤ b.x2 ∧ b.y1 ≤ b.y2)

/-- Zero-width-buffer repair for boxes: reorder the corners. -/
def qnorm (b : QBox) : QBox :=
  ⟨min b.x1 b.x2, min b.y1 b.y2, max b.x1 b.x2, max b.y1 b.y2⟩

/-- Closed-box intersection test. -/
def qinter (a b : QBox) : Bool :=
  decide (max a.x1 b.x1 ≤ min a.x2 b.x2 ∧ max a.y1 b.y1 ≤ min a.y2 b.y2)

/-- Gap between the intervals [a1,a2] and [b1,b2] (0 when they overlap). -/
def qgap (a1 a2 b1 b2 : ℚ) : ℚ :=
  max 0 (max (b1 - a2) (a1 - b2))

/-- Chebyshev gap distance between two boxes: 0 exactly when they intersect. -/
def qdist (a b : QBox) : ℚ :=
  max (qgap a.x1 a.x2 b.x1 b.x2) (qgap a.y1 a.y2 b.y1 b.y2)

/-- Bounding hull of two boxes. -/
def qhull (a b : QBox) : QBox :=
  ⟨min a.x1 b.x1, min a.y1 b.y1, max a.x2 b.x2, max a.y2 b.y2⟩

/-- Union of a nonempty list of boxes, as their bounding hull (the source
never unions an empty candidate list). -/
def qunion : List QBox → QBox
  | [] => ⟨0, 0, 0, 0⟩
  | [b] => b
  | b :: bs => qhull b (qunion bs)

/-- Local projection for boxes: fails at a center latitude outside [-90,90]
(pyproj rejects the aeqd transform) or for geometries at least 180 degrees
wide (antimeridian degeneracy); otherwise recenters on the query point with
111000 model-meters per degree. -/
def qproj (lon lat : ℚ) (b : QBox) : Option QBox :=
  if |lat| ≤ 90 ∧ b.x2 - b.x1 < 180 then
    some ⟨(b.x1 - lon) * 111000, (b.y1 - lat) * 111000,
          (b.x2 - lon) * 111000, (b.y2 - lat) * 111000⟩
  else none

/-- The concrete geometry backend used for explicit evaluations. -/
def QLib : GeoLib where
  G := QBox
  is_valid := qvalid
  buffer0 := qnorm
  intersects := qinter
  distance := qdist
  unary_union := qunion
  mkPoint := fun lon lat => ⟨lon, lat, lon, lat⟩
  bufferEps := fun b =>
    ⟨b.x1 - 1/1000000000, b.y1 - 1/1000000000, b.x2 + 1/1000000000, b.y2 + 1/1000000000⟩
  mkBox := fun a b c d => ⟨a, b, c, d⟩
  toProj := qproj
  to4326 := id

set_option allowUnsafeReducibility true in
attribute [semireducible] Rat.add Rat.sub Rat.mul Rat.div Rat.inv Rat.ofScientific

/-- Decidability of a property of the value carried by a concrete `Option`,
needed to evaluate hypotheses of the claim theorems on explicit inputs. -/
instance decidableForallOptionSome {α : Type} (o : Option α) (p : α → Prop)
    [dp : ∀ a, Decidable (p a)] : Decidable (∀ g, o = some g → p g) :=
  match o with
  | none => isTrue (fun g h => by cases h)
  | some a =>
    match dp a with
    | isTrue h => isTrue (fun g hg => Option.some.inj hg ▸ h)
    | isFalse h => isFalse (fun hall => h (hall a rfl))

/-- The floor is a lower bound for round-half-to-even. -/
theorem roundHalfEven_ge_floor (q : ℚ) : Int.floor q ≤ roundHalfEven q := by
  unfold roundHalfEven
  split_ifs <;> omega

/-- Round-half-to-even exceeds the floor by at most one. -/
theorem roundHalfEven_le_floor_add_one (q : ℚ) : roundHalfEven q ≤ Int.floor q + 1 := by
  unfold roundHalfEven
  split_ifs <;> omega

/-- Monotonicity of round-half-to-even. -/
theorem roundHalfEven_mono {q r : ℚ} (h : q ≤ r) : roundHalfEven q ≤ roundHalfEven r := by
  rcases lt_or_eq_of_le (Int.floor_mono h) with hf | hf
  · calc roundHalfEven q ≤ Int.floor q + 1 := roundHalfEven_le_floor_add_one q
      _ ≤ Int.floor r := by omega
      _ ≤ roundHalfEven r := roundHalfEven_ge_floor r
  · unfold roundHalfEven
    rw [← hf]
    split_ifs <;> first | omega | linarith

/-- Round-half-to-even overshoots by at most one half. -/
theorem roundHalfEven_le_add_half (q : ℚ) : (roundHalfEven q : ℚ) ≤ q + 1/2 := by
  have h1 : (Int.floor q : ℚ) ≤ q := Int.floor_le q
  unfold roundHalfEven
  split_ifs <;> push_cast <;> linarith

/-- Round-half-to-even of a nonnegative number is nonnegative. -/
theorem roundHalfEven_nonneg {q : ℚ} (h : 0 ≤ q) : 0 ≤ roundHalfEven q :=
  le_trans (Int.floor_nonneg.mpr h) (roundHalfEven_ge_floor q)

/-- Monotonicity of decimal rounding. -/
theorem roundTo_mono {q r : ℚ} (n : ℕ) (h : q ≤ r) : roundTo q n ≤ roundTo r n := by
  unfold roundTo
  have hp : (0:ℚ) < 10 ^ n := by positivity
  refine (div_le_div_iff_of_pos_right hp).mpr ?_
  exact_mod_cast roundHalfEven_mono (mul_le_mul_of_nonneg_right h (le_of_lt hp))

/-- Decimal rounding overshoots by at most half an ulp. -/
theorem roundTo_le_add_half_ulp (q : ℚ) (n : ℕ) : roundTo q n ≤ q + 1 / (2 * 10 ^ n) := by
  unfold roundTo
  have hp : (0:ℚ) < 10 ^ n := by positivity
  rw [div_le_iff₀ hp]
  have heq : (q + 1 / (2 * 10 ^ n)) * 10 ^ n = q * 10 ^ n + 1/2 := by
    field_simp
    ring
  rw [heq]
  exact roundHalfEven_le_add_half _

/-- Decimal rounding of a nonnegative number is nonnegative. -/
theorem roundTo_nonneg {q : ℚ} (n : ℕ) (h : 0 ≤ q) : 0 ≤ roundTo q n := by
  unfold roundTo
  have hp : (0:ℚ) < 10 ^ n := by positivity
  apply div_nonneg _ (le_of_lt hp)
  exact_mod_cast roundHalfEven_nonneg (mul_nonneg h (le_of_lt hp))

/-- The default-valued head of a nonempty list is a member. -/
theorem headD_mem {α : Type} {l : List α} (d : α) (h : l ≠ []) : l.headD d ∈ l := by
  cases l with
  | nil => exact absurd rfl h
  | cons a t => simp [List.headD]

/-- headD through head?. -/
theorem headD_eq_head_getD {α : Type} (l : List α) (d : α) : l.headD d = l.head?.getD d := by
  cases l <;> rfl

/-- A successful whole-list projection provides a projected image for every
member. -/
theorem projRows_mem_some {L : GeoLib} {lon lat : ℚ} :
    ∀ {rs : List (Row L.G)} {gs : List L.G}, projRows L lon lat rs = some gs →
      ∀ r ∈ rs, ∃ g ∈ gs, L.toProj lon lat r.geom = some g := by
  intro rs
  induction rs with
  | nil => intro gs _ r hr; cases hr
  | cons a t ih =>
    intro gs h r hr
    rw [projRows] at h
    rcases hpa : L.toProj lon lat a.geom with _ | p <;> rw [hpa] at h
    · cases h
    rcases hpt : projRows L lon lat t with _ | ps <;> rw [hpt] at h
    · cases h
    cases h
    rcases List.mem_cons.mp hr with rfl | hr
    · exact ⟨p, List.mem_cons_self p ps, hpa⟩
    · rcases ih hpt r hr with ⟨g, hg, hgp⟩
      exact ⟨g, List.mem_cons_of_mem p hg, hgp⟩

/-- A successful whole-list projection relates rows to images pointwise along
the zip. -/
theorem projRows_zip {L : GeoLib} {lon lat : ℚ} :
    ∀ {rs : List (Row L.G)} {gs : List L.G}, projRows L lon lat rs = some gs →
      ∀ p ∈ rs.zip gs, L.toProj lon lat p.1.geom = some p.2 := by
  intro rs
  induction rs with
  | nil => intro gs _ p hp; cases hp
  | cons a t ih =>
    intro gs h p hp
    rw [projRows] at h
    rcases hpa : L.toProj lon lat a.geom with _ | g <;> rw [hpa] at h
    · cases h
    rcases hpt : projRows L lon lat t with _ | ps <;> rw [hpt] at h
    · cases h
    cases h
    rcases List.mem_cons.mp hp with rfl | hp
    · exact hpa
    · exact ih hpt p hp

/-- A single failing geometry makes the whole-list projection fail. -/
theorem projRows_none {L : GeoLib} {lon lat : ℚ} :
    ∀ {rs : List (Row L.G)} {r : Row L.G}, r ∈ rs →
      L.toProj lon lat r.geom = none → projRows L lon lat rs = none := by
  intro rs
  induction rs with
  | nil => intro r hr; cases hr
  | cons a t ih =>
    intro r hr hn
    rw [projRows]
    rcases List.mem_cons.mp hr with rfl | hr
    · rw [hn]
    · rcases hpa : L.toProj lon lat a.geom with _ | g
      · rfl
      · rw [ih hr hn]

/-- A per-level outcome entry always carries the level it was computed for. -/
theorem levelOutcome_level {L : GeoLib} {lon lat : ℚ} {filtered : List (Row L.G)}
    {rm : Option ℚ} {dp : ℕ} {lv : ℤ} {e : LevelDistance}
    (h : levelOutcome L lon lat filtered rm dp lv = some e) : e.level = lv := by
  unfold levelOutcome at h
  split at h
  · cases h
  · split at h
    · split at h
      · split at h
        · cases h
        · cases h
          rfl
      · cases h
        rfl
    · cases h

/-- A level whose outcome is `none` never appears in the assembled report. -/
theorem outcome_none_not_mem {L : GeoLib} {lon lat : ℚ} {filtered : List (Row L.G)}
    {rm : Option ℚ} {dp : ℕ} {lv : ℤ} (levels : List ℤ)
    (h : levelOutcome L lon lat filtered rm dp lv = none) :
    lv ∉ (levels.filterMap (levelOutcome L lon lat filtered rm dp)).map LevelDistance.level := by
  intro hmem
  rcases List.mem_map.mp hmem with ⟨e, he, hlev⟩
  rcases List.mem_filterMap.mp he with ⟨lv2, _, hout⟩
  have h2 : lv2 = lv := (levelOutcome_level hout).symm.trans hlev
  rw [h2, h] at hout
  cases hout

/-- The levels of the assembled report form a sublist of the enumerated
levels. -/
theorem report_levels_sublist {L : GeoLib} {lon lat : ℚ}
    {filtered : List (Row L.G)} {rm : Option ℚ} {dp : ℕ} (levels : List ℤ) :
    List.Sublist
      ((levels.filterMap (levelOutcome L lon lat filtered rm dp)).map LevelDistance.level)
      levels := by
  induction levels with
  | nil => simp
  | cons a t ih =>
    cases hfa : levelOutcome L lon lat filtered rm dp a with
    | none => simpa [List.filterMap_cons, hfa] using ih.cons a
    | some e => simpa [List.filterMap_cons, hfa, levelOutcome_level hfa] using ih.cons₂ a

/-- The descending level sort is a permutation of its input. -/
theorem sortValuesLevelDesc_perm {G : Type} (l : List (Row G)) :
    List.Perm (sortValuesLevelDesc l) l := by
  unfold sortValuesLevelDesc
  have h1 : (fun r : Row G => (levelAttr r).isNone)
      = (fun r : Row G => !(levelAttr r).isSome) := by
    funext r
    cases levelAttr r <;> rfl
  rw [h1]
  refine List.Perm.trans (List.Perm.append_right _ ?_) (List.filter_append_perm _ l)
  exact List.Perm.trans (List.reverse_perm _) (List.perm_insertionSort _ _)

/-- The descending level sort of a nonempty list is nonempty. -/
theorem sortValuesLevelDesc_ne_nil {G : Type} {l : List (Row G)} (h : l ≠ []) :
    sortValuesLevelDesc l ≠ [] := by
  intro hc
  have hlen := (sortValuesLevelDesc_perm l).length_eq
  rw [hc] at hlen
  exact h (List.eq_nil_of_length_eq_zero hlen.symm)

/-- Every row of the `containing` set comes from the store. -/
theorem mem_rows_of_mem_containing {L : GeoLib} {τ lon lat : ℚ}
    {rows : List (Row L.G)} {r : Row L.G}
    (h : r ∈ containingRows L τ lon lat rows) : r ∈ rows := by
  unfold containingRows at h
  split at h
  · unfold fallbackContaining at h
    split at h
    · rcases List.mem_map.mp h with ⟨p, hp, hpe⟩
      have hz := List.mem_of_mem_filter hp
      exact hpe ▸ (List.of_mem_zip hz).1
    · cases h
  · exact List.mem_of_mem_filter h

/-- With a nonempty `containing` set, query_point_level reports the winner's
level and property map, for a winner drawn from the `containing` set. -/
theorem query_point_level_winner {L : GeoLib} {τ lon lat : ℚ} {rows : List (Row L.G)}
    (hne : containingRows L τ lon lat rows ≠ []) :
    ∃ w ∈ containingRows L τ lon lat rows,
      query_point_level L lon lat rows τ = ⟨true, levelAttr w, some ⟨levelAttr w, w.attrs⟩⟩ := by
  rcases hcs : containingRows L τ lon lat rows with _ | ⟨r, rs⟩
  · exact absurd hcs hne
  · rcases rs with _ | ⟨r2, rs2⟩
    · refine ⟨r, List.mem_cons_self r [], ?_⟩
      unfold query_point_level
      rw [hcs]
    · have hnn : sortValuesLevelDesc (r :: r2 :: rs2) ≠ [] :=
        sortValuesLevelDesc_ne_nil (by simp)
      refine ⟨(sortValuesLevelDesc (r :: r2 :: rs2)).headD r, ?_, ?_⟩
      · exact (sortValuesLevelDesc_perm _).subset (headD_mem r hnn)
      · unfold query_point_level
        rw [hcs]

/-- A reported level comes from a winner in the `containing` set carrying
that level. -/
theorem winner_of_level_some {L : GeoLib} {τ lon lat : ℚ} {rows : List (Row L.G)} {lv : ℤ}
    (h : (query_point_level L lon lat rows τ).level = some lv) :
    ∃ w ∈ containingRows L τ lon lat rows, levelAttr w = some lv := by
  have hne : containingRows L τ lon lat rows ≠ [] := by
    intro hc
    unfold query_point_level at h
    rw [hc] at h
    cases h
  rcases query_point_level_winner hne with ⟨w, hw, heq⟩
  rw [heq] at h
  exact ⟨w, hw, h⟩

/-- lastMaxBy of a nonempty list is some. -/
theorem lastMaxBy_ne_none {α : Type} (key : α → ℤ) (x : α) (xs : List α) :
    lastMaxBy key (x :: xs) ≠ none := by
  rw [lastMaxBy]
  rcases lastMaxBy key xs with _ | w
  · simp
  · dsimp only
    split <;> simp

/-- lastMaxBy returns an element of the list. -/
theorem lastMaxBy_mem {α : Type} (key : α → ℤ) :
    ∀ {l : List α} {w : α}, lastMaxBy key l = some w → w ∈ l := by
  intro l
  induction l with
  | nil => intro w h; cases h
  | cons x xs ih =>
    intro w h
    rw [lastMaxBy] at h
    rcases hx : lastMaxBy key xs with _ | w2 <;> rw [hx] at h <;> dsimp only at h
    · cases h
      exact List.mem_cons_self _ _
    · by_cases hlt : key w2 < key x
      · rw [if_pos hlt] at h
        cases h
        exact List.mem_cons_self _ _
      · rw [if_neg hlt] at h
        cases h
        exact List.mem_cons_of_mem x (ih hx)

/-- lastMaxBy attains the maximum key. -/
theorem lastMaxBy_le {α : Type} (key : α → ℤ) :
    ∀ {l : List α} {w : α}, lastMaxBy key l = some w → ∀ r ∈ l, key r ≤ key w := by
  intro l
  induction l with
  | nil => intro w h; cases h
  | cons x xs ih =>
    intro w h r hr
    rw [lastMaxBy] at h
    rcases hx : lastMaxBy key xs with _ | w2 <;> rw [hx] at h <;> dsimp only at h
    · cases xs with
      | nil =>
        cases h
        rcases List.mem_cons.mp hr with rfl | hr2
        · exact le_refl _
        · cases hr2
      | cons y ys => exact absurd hx (lastMaxBy_ne_none key y ys)
    · by_cases hlt : key w2 < key x
      · rw [if_pos hlt] at h
        cases h
        rcases List.mem_cons.mp hr with rfl | hr2
        · exact le_refl _
        · exact le_trans (ih hx r hr2) (le_of_lt hlt)
      · rw [if_neg hlt] at h
        cases h
        rcases List.mem_cons.mp hr with rfl | hr2
        · exact le_of_not_lt hlt
        · exact ih hx r hr2

/-- getLast? of a cons with nonempty tail is the tail's getLast?. -/
theorem getLast?_cons_of_ne_nil {α : Type} {t : List α} (y : α) (h : t ≠ []) :
    (y :: t).getLast? = t.getLast? := by
  cases t with
  | nil => exact absurd rfl h
  | cons z zs => exact List.getLast?_cons_cons

/-- getLast? of a nonempty list is some. -/
theorem getLast?_cons_ne_none {α : Type} (y : α) (ys : List α) :
    (y :: ys).getLast? ≠ none := by
  induction ys generalizing y with
  | nil => simp
  | cons z zs ih =>
    rw [List.getLast?_cons_cons]
    exact ih z

/-- Inserting into a sorted-by-key list: the new last element is the inserted
one exactly when its key strictly exceeds the previous last key. -/
theorem getLast?_orderedInsert {α : Type} (key : α → ℤ) (x : α) :
    ∀ (s : List α), s.Sorted (fun a b => key a ≤ key b) →
      (List.orderedInsert (fun a b => key a ≤ key b) x s).getLast? =
        (match s.getLast? with
         | none => some x
         | some w => if key w < key x then some x else some w) := by
  intro s
  induction s with
  | nil => intro _; rfl
  | cons y ys ih =>
    intro hs
    rw [List.orderedInsert]
    by_cases hxy : key x ≤ key y
    · rw [if_pos hxy, List.getLast?_cons_cons]
      rcases hgl : (y :: ys).getLast? with _ | w
      · exact absurd hgl (getLast?_cons_ne_none y ys)
      · have hw : w ∈ y :: ys := List.mem_of_mem_getLast? hgl
        have hyw : key y ≤ key w := by
          rcases List.mem_cons.mp hw with rfl | hw2
          · exact le_refl _
          · exact List.rel_of_sorted_cons hs w hw2
        dsimp only
        rw [if_neg (fun hc => absurd (lt_of_le_of_lt (le_trans hxy hyw) hc) (lt_irrefl _))]
    · rw [if_neg hxy]
      have hne : List.orderedInsert (fun a b => key a ≤ key b) x ys ≠ [] := by
        intro hc
        have hl := List.orderedInsert_length (fun a b => key a ≤ key b) ys x
        rw [hc] at hl
        simp at hl
      rw [getLast?_cons_of_ne_nil y hne, ih hs.of_cons]
      cases ys with
      | nil =>
        simp [not_le.mp hxy]
      | cons z zs =>
        rw [List.getLast?_cons_cons]

/-- The last element of the stable ascending insertion sort is the last
maximum of the input. -/
theorem getLast?_insertionSort_eq_lastMaxBy {α : Type} (key : α → ℤ) (l : List α) :
    (List.insertionSort (fun a b => key a ≤ key b) l).getLast? = lastMaxBy key l := by
  induction l with
  | nil => rfl
  | cons x xs ih =>
    rw [List.insertionSort]
    have hsorted : (List.insertionSort (fun a b => key a ≤ key b) xs).Sorted
        (fun a b => key a ≤ key b) := by
      haveI : IsTotal α (fun a b => key a ≤ key b) := ⟨fun a b => le_total _ _⟩
      haveI : IsTrans α (fun a b => key a ≤ key b) :=
        ⟨fun _ _ _ hab hbc => le_trans hab hbc⟩
      exact List.sorted_insertionSort _ xs
    rw [getLast?_orderedInsert key x _ hsorted, ih]
    rfl

/-- When every candidate carries a level, the head of the pandas-style
descending sort is the last row attaining the maximum level. -/
theorem headD_sortValuesLevelDesc_eq_lastMaxBy {G : Type} (l : List (Row G)) (d : Row G)
    (hl : ∀ r ∈ l, (levelAttr r).isSome = true) :
    (sortValuesLevelDesc l).headD d = (lastMaxBy levKey l).getD d := by
  unfold sortValuesLevelDesc
  have h1 : l.filter (fun r => (levelAttr r).isSome) = l := List.filter_eq_self.mpr hl
  have h2 : l.filter (fun r => (levelAttr r).isNone) = [] := by
    rw [List.filter_eq_nil_iff]
    intro a ha
    have h3 := hl a ha
    rcases hA : levelAttr a with _ | v
    · rw [hA] at h3
      cases h3
    · simp [Option.isNone, hA]
  rw [h1, h2, List.append_nil, headD_eq_head_getD, List.head?_reverse,
    getLast?_insertionSort_eq_lastMaxBy]

/-- The enumerated distinct levels are strictly ascending. -/
theorem distinctLevels_sorted_lt {G : Type} (rows : List (Row G)) :
    (distinctLevels rows).Pairwise (fun a b : ℤ => a < b) := by
  unfold distinctLevels
  have hs : (List.insertionSort (fun a b : ℤ => a ≤ b)
      (rows.filterMap levelAttr).dedup).Sorted (fun a b : ℤ => a ≤ b) := by
    haveI : IsTotal ℤ (fun a b : ℤ => a ≤ b) := ⟨fun a b => le_total _ _⟩
    haveI : IsTrans ℤ (fun a b : ℤ => a ≤ b) := ⟨fun _ _ _ => le_trans⟩
    exact List.sorted_insertionSort _ _
  have hn : (List.insertionSort (fun a b : ℤ => a ≤ b)
      (rows.filterMap levelAttr).dedup).Nodup :=
    (List.perm_insertionSort _ _).symm.nodup (List.nodup_dedup _)
  exact hs.lt_of_le hn

/-- Membership in the enumerated levels is carrying the level in the store. -/
theorem mem_distinctLevels {G : Type} {rows : List (Row G)} {lv : ℤ} :
    lv ∈ distinctLevels rows ↔ ∃ r, r ∈ rows ∧ levelAttr r = some lv := by
  unfold distinctLevels
  rw [(List.perm_insertionSort _ _).mem_iff, List.mem_dedup, List.mem_filterMap]

/-- The box gap metric is nonnegative. -/
theorem qdist_nonneg (a b : QBox) : 0 ≤ qdist a b :=
  le_trans (le_max_left 0 _) (le_max_left _ _)

/-- Reordering corners yields a valid box. -/
theorem qvalid_qnorm (b : QBox) : qvalid (qnorm b) = true := by
  unfold qvalid qnorm
  exact decide_eq_true ⟨min_le_max, min_le_max⟩

/-- Coordinatewise box containment. -/
def qsub (g h : QBox) : Prop :=
  h.x1 ≤ g.x1 ∧ h.y1 ≤ g.y1 ∧ g.x2 ≤ h.x2 ∧ g.y2 ≤ h.y2

/-- Containment is reflexive. -/
theorem qsub_refl (g : QBox) : qsub g g :=
  ⟨le_refl _, le_refl _, le_refl _, le_refl _⟩

/-- Containment is transitive. -/
theorem qsub_trans {a b c : QBox} (h1 : qsub a b) (h2 : qsub b c) : qsub a c :=
  ⟨le_trans h2.1 h1.1, le_trans h2.2.1 h1.2.1,
   le_trans h1.2.2.1 h2.2.2.1, le_trans h1.2.2.2 h2.2.2.2⟩

/-- Distance to a larger box is smaller. -/
theorem qdist_anti {p g h : QBox} (hsub : qsub g h) : qdist p h ≤ qdist p g := by
  obtain ⟨h1, h2, h3, h4⟩ := hsub
  unfold qdist qgap
  refine max_le_max ?_ ?_ <;> refine max_le_max (le_refl 0) ?_ <;>
    refine max_le_max ?_ ?_ <;> linarith

/-- The hull contains its left argument. -/
theorem qsub_hull_left (a b : QBox) : qsub a (qhull a b) := by
  unfold qhull
  exact ⟨min_le_left _ _, min_le_left _ _, le_max_left _ _, le_max_left _ _⟩

/-- The hull contains its right argument. -/
theorem qsub_hull_right (a b : QBox) : qsub b (qhull a b) := by
  unfold qhull
  exact ⟨min_le_right _ _, min_le_right _ _, le_max_right _ _, le_max_right _ _⟩

/-- The union hull contains every member. -/
theorem qsub_qunion {g : QBox} : ∀ {gs : List QBox}, g ∈ gs → qsub g (qunion gs) := by
  intro gs
  induction gs with
  | nil => intro h; cases h
  | cons b bs ih =>
    intro h
    cases bs with
    | nil =>
      rcases List.mem_cons.mp h with rfl | h2
      · exact qsub_refl g
      · cases h2
    | cons c cs =>
      rcases List.mem_cons.mp h with rfl | h2
      · exact qsub_hull_left g (qunion (c :: cs))
      · exact qsub_trans (ih h2) (qsub_hull_right b (qunion (c :: cs)))

/-- Distance to the union is at most the distance to any member. -/
theorem qdist_qunion_le (p : QBox) {gs : List QBox} {g : QBox} (h : g ∈ gs) :
    qdist p (qunion gs) ≤ qdist p g :=
  qdist_anti (qsub_qunion h)

/-- The union law of the concrete backend, in GeoLib terms. -/
theorem qlib_union_le : ∀ (p : QBox) (gs : List QBox) (g : QBox), g ∈ gs →
    QLib.distance p (QLib.unary_union gs) ≤ QLib.distance p g :=
  fun p _ _ h => qdist_qunion_le p h

/-- Nonnegativity of the concrete backend's metric, in GeoLib terms. -/
theorem qlib_dist_nonneg : ∀ (p g : QBox), 0 ≤ QLib.distance p g :=
  qdist_nonneg

/-- Repair validity of the concrete backend, in GeoLib terms. -/
theorem qlib_buffer0_valid : ∀ g : QBox, QLib.is_valid (QLib.buffer0 g) = true :=
  qvalid_qnorm

/-- C3 counterexample: at longitude -400 the normalization returns -40,
which is outside [0,360), and renormalizing gives 320 ≠ -40, so neither the
range claim nor idempotence holds for arbitrary real input. -/
theorem C3_counterexample :
    ¬(((0 : ℚ) ≤ convert_lon_to_360 (-400) ∧ convert_lon_to_360 (-400) < 360) ∧
      convert_lon_to_360 (convert_lon_to_360 (-400)) = convert_lon_to_360 (-400)) := by
  norm_num [convert_lon_to_360]

/-- C3 (amended): for inputs in [-360, 360) — which covers both the
[-180,180] and the [0,360) conventions — convert_lon_to_360 lands in [0,360)
and is idempotent. -/
theorem C3_normalization_range_idempotent (x : ℚ) (h1 : -360 ≤ x) (h2 : x < 360) :
    ((0 : ℚ) ≤ convert_lon_to_360 x ∧ convert_lon_to_360 x < 360) ∧
    convert_lon_to_360 (convert_lon_to_360 x) = convert_lon_to_360 x := by
  unfold convert_lon_to_360
  by_cases hx : x < 0
  · rw [if_pos hx]
    refine ⟨⟨by linarith, by linarith⟩, ?_⟩
    rw [if_neg (by linarith : ¬x + 360 < 0)]
  · rw [if_neg hx]
    refine ⟨⟨by linarith, h2⟩, ?_⟩
    rw [if_neg hx]

/-- C3 witness: the amended statement evaluated at the repository's own test
longitude -160. -/
theorem C3_witness :
    ((0 : ℚ) ≤ convert_lon_to_360 (-160) ∧ convert_lon_to_360 (-160) < 360) ∧
    convert_lon_to_360 (convert_lon_to_360 (-160)) = convert_lon_to_360 (-160) :=
  C3_normalization_range_idempotent (-160) (by norm_num) (by norm_num)

/-- Repair is idempotent when the zero-width buffer yields valid geometry. -/
theorem fixG_idem (L : GeoLib) (hb : ∀ g2 : L.G, L.is_valid (L.buffer0 g2) = true)
    (g : L.G) : fixG L (fixG L g) = fixG L g := by
  unfold fixG
  by_cases hv : L.is_valid g = true
  · rw [if_pos hv, if_pos hv]
  · rw [if_neg hv, if_pos (hb g)]

/-- C9: fix_invalid_geometry returns a valid geometry unchanged, and is
idempotent; idempotence relies on the external library's zero-width buffer
producing valid geometry (hypothesis hb), which the source assumes of
shapely. -/
theorem C9_fix_geometry_noop_idempotent (L : GeoLib) (g : L.G) (og : Option L.G)
    (hb : ∀ g2 : L.G, L.is_valid (L.buffer0 g2) = true)
    (hv : L.is_valid g = true) :
    fix_invalid_geometry L (some g) = some g ∧
    fix_invalid_geometry L (fix_invalid_geometry L og) = fix_invalid_geometry L og := by
  constructor
  · show some (fixG L g) = some g
    unfold fixG
    rw [if_pos hv]
  · rcases og with _ | g2
    · rfl
    · exact congrArg some (fixG_idem L hb g2)

/-- C9 witness: the repair evaluated on a concrete valid box and on a
concrete invalid (corner-swapped) box. -/
theorem C9_witness :
    fix_invalid_geometry QLib (some ⟨0, 0, 1, 1⟩) = some ⟨0, 0, 1, 1⟩ ∧
    fix_invalid_geometry QLib (fix_invalid_geometry QLib (some ⟨1, 1, 0, 0⟩)) =
      fix_invalid_geometry QLib (some ⟨1, 1, 0, 0⟩) :=
  C9_fix_geometry_noop_idempotent QLib ⟨0, 0, 1, 1⟩ (some ⟨1, 1, 0, 0⟩)
    qlib_buffer0_valid (by decide)

/-- Decidable equality transported along the definitional unfolding of the
concrete backend's geometry type. -/
instance : DecidableEq QLib.G :=
  fun a b => (inferInstanceAs (DecidableEq QBox)) a b

/-- C5 counterexample: a source whose single feature has no `level`
attribute loads without any error and the feature is returned in the store —
loading performs no level validation. -/
theorem C5_counterexample :
    load_wind_level_gdf QLib ⟨[⟨⟨0, 0, 10, 10⟩, [("name", 7)]⟩], some "EPSG:4326"⟩ =
      [⟨⟨0, 0, 10, 10⟩, [("name", 7)]⟩] ∧
    levelAttr (⟨⟨0, 0, 10, 10⟩, [("name", 7)]⟩ : Row QBox) = none := by
  constructor
  · decide
  · decide

/-- C5 (amended): load_wind_level_gdf never inspects the `level` attribute —
every parsed feature is returned (geometry repaired, attributes untouched)
whether or not it carries a level; the absence only surfaces at query time. -/
theorem C5_load_no_level_validation (L : GeoLib) (src : SourceData L.G) :
    (load_wind_level_gdf L src).length = src.rows.length ∧
    (load_wind_level_gdf L src).map Row.attrs = src.rows.map Row.attrs := by
  unfold load_wind_level_gdf
  split_ifs with hc
  · constructor
    · simp
    · rw [List.map_map]
      rfl
  · constructor
    · simp
    · rw [List.map_map, List.map_map]
      rfl

/-- C10 counterexample: a point inside a region whose feature lacks the
level attribute classifies with in_polygon = true but level = None, so
"in_polygon is false iff level is None" fails on the code. -/
theorem C10_counterexample :
    (query_point_level QLib 5 5 [⟨⟨0, 0, 10, 10⟩, [("name", 7)]⟩] 1).in_polygon = true ∧
    (query_point_level QLib 5 5 [⟨⟨0, 0, 10, 10⟩, [("name", 7)]⟩] 1).level = none := by
  decide

/-- C10 (amended): provided every stored feature carries a level attribute,
the classification is internally consistent: in_polygon is false iff level
is None, iff matched_info is None, and the top-level level always equals the
level carried inside matched_info. -/
theorem C10_classification_consistency (L : GeoLib) (lon lat τ : ℚ)
    (rows : List (Row L.G))
    (hall : ∀ r ∈ rows, (levelAttr r).isSome = true) :
    ((query_point_level L lon lat rows τ).in_polygon = false ↔
      (query_point_level L lon lat rows τ).level = none) ∧
    ((query_point_level L lon lat rows τ).in_polygon = false ↔
      (query_point_level L lon lat rows τ).matched_info = none) ∧
    (query_point_level L lon lat rows τ).level =
      (query_point_level L lon lat rows τ).matched_info.bind MatchedInfo.level := by
  rcases hcs : containingRows L τ lon lat rows with _ | ⟨r, rs⟩
  · have hq : query_point_level L lon lat rows τ = ⟨false, none, none⟩ := by
      unfold query_point_level
      rw [hcs]
    rw [hq]
    exact ⟨by simp, by simp, rfl⟩
  · have hne : containingRows L τ lon lat rows ≠ [] := by
      rw [hcs]
      simp
    rcases query_point_level_winner hne with ⟨w, hw, heq⟩
    have hwlevel : (levelAttr w).isSome = true := hall w (mem_rows_of_mem_containing hw)
    rw [heq]
    rcases hA : levelAttr w with _ | v
    · rw [hA] at hwlevel
      cases hwlevel
    · exact ⟨by simp, by simp, rfl⟩

/-- C10 witness: the consistency statement evaluated on a concrete
one-region store whose feature carries level 5. -/
theorem C10_witness :
    ((query_point_level QLib 15 0 [⟨⟨10, -5, 20, 5⟩, [("level", 5)]⟩] 1).in_polygon = false ↔
      (query_point_level QLib 15 0 [⟨⟨10, -5, 20, 5⟩, [("level", 5)]⟩] 1).level = none) ∧
    ((query_point_level QLib 15 0 [⟨⟨10, -5, 20, 5⟩, [("level", 5)]⟩] 1).in_polygon = false ↔
      (query_point_level QLib 15 0 [⟨⟨10, -5, 20, 5⟩, [("level", 5)]⟩] 1).matched_info = none) ∧
    (query_point_level QLib 15 0 [⟨⟨10, -5, 20, 5⟩, [("level", 5)]⟩] 1).level =
      (query_point_level QLib 15 0
        [⟨⟨10, -5, 20, 5⟩, [("level", 5)]⟩] 1).matched_info.bind MatchedInfo.level :=
  C10_classification_consistency QLib 15 0 1 [⟨⟨10, -5, 20, 5⟩, [("level", 5)]⟩] (by decide)

/-- C2 counterexample: two overlapping regions share the highest level 9; the
`containing` set lists the region with id 1 first, yet the classification
reports the property map of the region with id 2 — the LAST matching region
in iteration order, not the first (pandas' descending sort reverses the
stable ascending argsort). -/
theorem C2_counterexample :
    containingRows QLib 1 15 0
        [⟨⟨10, -5, 20, 5⟩, [("level", 9), ("id", 1)]⟩,
         ⟨⟨10, -5, 20, 5⟩, [("level", 9), ("id", 2)]⟩] =
      [⟨⟨10, -5, 20, 5⟩, [("level", 9), ("id", 1)]⟩,
       ⟨⟨10, -5, 20, 5⟩, [("level", 9), ("id", 2)]⟩] ∧
    (query_point_level QLib 15 0
        [⟨⟨10, -5, 20, 5⟩, [("level", 9), ("id", 1)]⟩,
         ⟨⟨10, -5, 20, 5⟩, [("level", 9), ("id", 2)]⟩] 1).matched_info =
      some ⟨some 9, [("level", 9), ("id", 2)]⟩ ∧
    ([("level", 9), ("id", 2)] : List (String × ℤ)) ≠ [("level", 9), ("id", 1)] := by
  decide

/-- C2 (amended): with two or more matching regions all carrying levels,
query_point_level returns in_polygon true, the numerically highest level
among the matches, and the matched_info (level and full property map) of the
winner; the deterministic tie-break selects the LAST region in iteration
order among those attaining the highest level (lastMaxBy). -/
theorem C2_highest_level_last_tie (L : GeoLib) (lon lat τ : ℚ) (rows : List (Row L.G))
    (hmulti : 2 ≤ (containingRows L τ lon lat rows).length)
    (hsome : ∀ r ∈ containingRows L τ lon lat rows, (levelAttr r).isSome = true) :
    (query_point_level L lon lat rows τ).in_polygon = true ∧
    (query_point_level L lon lat rows τ).level =
      (lastMaxBy levKey (containingRows L τ lon lat rows)).bind levelAttr ∧
    (query_point_level L lon lat rows τ).matched_info =
      (lastMaxBy levKey (containingRows L τ lon lat rows)).map
        (fun w => ⟨levelAttr w, w.attrs⟩) ∧
    (∀ w, lastMaxBy levKey (containingRows L τ lon lat rows) = some w →
      ∀ r ∈ containingRows L τ lon lat rows, levKey r ≤ levKey w) := by
  rcases hcs : containingRows L τ lon lat rows with _ | ⟨r, rs⟩
  · rw [hcs] at hmulti
    simp at hmulti
  · rcases rs with _ | ⟨r2, rs2⟩
    · rw [hcs] at hmulti
      simp at hmulti
    · rw [hcs] at hsome
      have hq : query_point_level L lon lat rows τ =
          ⟨true, levelAttr ((sortValuesLevelDesc (r :: r2 :: rs2)).headD r),
            some ⟨levelAttr ((sortValuesLevelDesc (r :: r2 :: rs2)).headD r),
              ((sortValuesLevelDesc (r :: r2 :: rs2)).headD r).attrs⟩⟩ := by
        unfold query_point_level
        rw [hcs]
      have hhead := headD_sortValuesLevelDesc_eq_lastMaxBy (r :: r2 :: rs2) r hsome
      rcases hlm : lastMaxBy levKey (r :: r2 :: rs2) with _ | w
      · exact absurd hlm (lastMaxBy_ne_none _ _ _)
      · rw [hlm, Option.getD_some] at hhead
        rw [hq, hhead]
        refine ⟨rfl, rfl, rfl, ?_⟩
        intro w2 hw2 r3 hr3
        cases hw2
        exact lastMaxBy_le levKey hlm r3 hr3

/-- C2 witness: overlap of levels {5,9,9} at a concrete point — the winner
is level 9 and the last of the two level-9 regions. -/
theorem C2_witness :
    (query_point_level QLib 15 0
        [⟨⟨10, -5, 20, 5⟩, [("level", 5)]⟩,
         ⟨⟨10, -5, 20, 5⟩, [("level", 9), ("id", 1)]⟩,
         ⟨⟨10, -5, 20, 5⟩, [("level", 9), ("id", 2)]⟩] 1).in_polygon = true ∧
    (query_point_level QLib 15 0
        [⟨⟨10, -5, 20, 5⟩, [("level", 5)]⟩,
         ⟨⟨10, -5, 20, 5⟩, [("level", 9), ("id", 1)]⟩,
         ⟨⟨10, -5, 20, 5⟩, [("level", 9), ("id", 2)]⟩] 1).level =
      (lastMaxBy levKey (containingRows QLib 1 15 0
        [⟨⟨10, -5, 20, 5⟩, [("level", 5)]⟩,
         ⟨⟨10, -5, 20, 5⟩, [("level", 9), ("id", 1)]⟩,
         ⟨⟨10, -5, 20, 5⟩, [("level", 9), ("id", 2)]⟩])).bind levelAttr :=
  ⟨(C2_highest_level_last_tie QLib 15 0 1
      [⟨⟨10, -5, 20, 5⟩, [("level", 5)]⟩,
       ⟨⟨10, -5, 20, 5⟩, [("level", 9), ("id", 1)]⟩,
       ⟨⟨10, -5, 20, 5⟩, [("level", 9), ("id", 2)]⟩] (by decide) (by decide)).1,
   (C2_highest_level_last_tie QLib 15 0 1
      [⟨⟨10, -5, 20, 5⟩, [("level", 5)]⟩,
       ⟨⟨10, -5, 20, 5⟩, [("level", 9), ("id", 1)]⟩,
       ⟨⟨10, -5, 20, 5⟩, [("level", 9), ("id", 2)]⟩] (by decide) (by decide)).2.1⟩

/-- C8: projection failures are recovered per unit.  If the zero-match
fallback's whole-store projection (or the point projection) fails,
query_point_level returns in_polygon false with level None instead of
raising; if the projection of one level's candidates fails in
query_level_min_distance, that level is absent from the report while every
other level whose per-level computation succeeds still contributes its
entry. -/
theorem C8_projection_failure_recovered (L : GeoLib) (lon lat τ : ℚ)
    (rows : List (Row L.G)) (radius_km : Option ℚ) (dp : ℕ) (lv : ℤ)
    (hdir : directContaining L lon lat rows = [])
    (hfall : projRows L lon lat rows = none ∨ L.toProj lon lat (L.mkPoint lon lat) = none)
    (hlvfail : projRows L lon lat
        ((radiusFiltered L lon lat rows radius_km).filter
          (fun r => decide (levelAttr r = some lv))) = none) :
    query_point_level L lon lat rows τ = ⟨false, none, none⟩ ∧
    lv ∉ (query_level_min_distance L lon lat rows radius_km dp).map LevelDistance.level ∧
    (∀ lv2 e, lv2 ∈ distinctLevels rows →
      levelOutcome L lon lat (radiusFiltered L lon lat rows radius_km)
        (radius_km.map (fun rk => rk * 1000)) dp lv2 = some e →
      e ∈ query_level_min_distance L lon lat rows radius_km dp) := by
  have hcs : containingRows L τ lon lat rows = [] := by
    unfold containingRows
    rw [hdir]
    simp only [List.isEmpty_nil, if_true]
    unfold fallbackContaining
    rcases hpr : projRows L lon lat rows with _ | gs
    · rfl
    · rcases hfall with hf | hf
      · rw [hf] at hpr
        cases hpr
      · rw [hf]
  have hout : levelOutcome L lon lat (radiusFiltered L lon lat rows radius_km)
      (radius_km.map (fun rk => rk * 1000)) dp lv = none := by
    unfold levelOutcome
    split
    · rfl
    · rw [hlvfail]
  refine ⟨?_, ?_, ?_⟩
  · unfold query_point_level
    rw [hcs]
  · unfold query_level_min_distance
    exact outcome_none_not_mem (distinctLevels rows) hout
  · intro lv2 e hlv2 houtcome
    unfold query_level_min_distance
    exact List.mem_filterMap.mpr ⟨lv2, hlv2, houtcome⟩

/-- C8 witness: a store with a normal level-5 region and a 200-degree-wide
level-7 region (whose projection fails), queried from a point matching
neither: classification degrades to NOT_FOUND, level 7 is skipped, and
level 5 still reports its distance. -/
theorem C8_witness :
    query_point_level QLib 15 40
        [⟨⟨10, -5, 20, 5⟩, [("level", 5)]⟩, ⟨⟨-100, -5, 100, 5⟩, [("level", 7)]⟩] 1 =
      ⟨false, none, none⟩ ∧
    (7 : ℤ) ∉ (query_level_min_distance QLib 15 40
        [⟨⟨10, -5, 20, 5⟩, [("level", 5)]⟩, ⟨⟨-100, -5, 100, 5⟩, [("level", 7)]⟩]
        none 3).map LevelDistance.level ∧
    (⟨5, 3885⟩ : LevelDistance) ∈ query_level_min_distance QLib 15 40
        [⟨⟨10, -5, 20, 5⟩, [("level", 5)]⟩, ⟨⟨-100, -5, 100, 5⟩, [("level", 7)]⟩] none 3 := by
  have h := C8_projection_failure_recovered QLib 15 40 1
    [⟨⟨10, -5, 20, 5⟩, [("level", 5)]⟩, ⟨⟨-100, -5, 100, 5⟩, [("level", 7)]⟩]
    none 3 7 (by decide) (Or.inl (by decide)) (by decide)
  exact ⟨h.1, h.2.1, h.2.2 5 ⟨5, 3885⟩ (by decide) (by decide)⟩

/-- Membership in the radius-prefiltered candidate set means membership in
the store plus intersection with the radius bounding box. -/
theorem mem_radiusFiltered_some {L : GeoLib} {lon lat rk : ℚ}
    {rows : List (Row L.G)} {r : Row L.G}
    (h : r ∈ radiusFiltered L lon lat rows (some rk)) :
    r ∈ rows ∧ L.intersects r.geom
      (L.mkBox (lon - rk * (3/2) / 111) (lat - rk * (3/2) / 111)
               (lon + rk * (3/2) / 111) (lat + rk * (3/2) / 111)) = true := by
  unfold radiusFiltered at h
  dsimp only at h
  exact ⟨(List.mem_filter.mp h).1, (List.mem_filter.mp h).2⟩

/-- C6: the distance report is strictly ascending by level (in particular no
level repeats), and a level all of whose regions are discarded by the radius
bounding-box prefilter is absent from the radius-filtered report even though
those regions exist in the full store. -/
theorem C6_report_sorted_and_prefilter (L : GeoLib) (lon lat : ℚ)
    (rows : List (Row L.G)) (radius_km : Option ℚ) (dp : ℕ) (rk : ℚ) (lv0 : ℤ)
    (hnone : ∀ r ∈ rows, levelAttr r = some lv0 →
      L.intersects r.geom (L.mkBox (lon - rk * (3/2) / 111) (lat - rk * (3/2) / 111)
        (lon + rk * (3/2) / 111) (lat + rk * (3/2) / 111)) = false) :
    ((query_level_min_distance L lon lat rows radius_km dp).map LevelDistance.level).Pairwise
      (fun a b : ℤ => a < b) ∧
    lv0 ∉ (query_level_min_distance L lon lat rows (some rk) dp).map LevelDistance.level := by
  constructor
  · unfold query_level_min_distance
    exact (distinctLevels_sorted_lt rows).sublist (report_levels_sublist _)
  · have hout : levelOutcome L lon lat (radiusFiltered L lon lat rows (some rk))
        ((some rk).map (fun rk2 => rk2 * 1000)) dp lv0 = none := by
      unfold levelOutcome
      have hf : (radiusFiltered L lon lat rows (some rk)).filter
          (fun r => decide (levelAttr r = some lv0)) = [] := by
        rw [List.filter_eq_nil_iff]
        intro a ha hdec
        rcases mem_radiusFiltered_some ha with ⟨hmem, hbox⟩
        rw [hnone a hmem (of_decide_eq_true hdec)] at hbox
        cases hbox
      rw [hf]
      rfl
    unfold query_level_min_distance
    exact outcome_none_not_mem (distinctLevels rows) hout

/-- C6 witness: store with levels {5,7} near the point and a far level-2
region outside the 740 km prefilter box — the report is the strictly
ascending [5,7] and level 2 is absent despite existing in the store. -/
theorem C6_witness :
    ((query_level_min_distance QLib 15 0
        [⟨⟨10, -5, 20, 5⟩, [("level", 5)]⟩, ⟨⟨12, -3, 18, 3⟩, [("level", 7)]⟩,
         ⟨⟨200, 40, 210, 50⟩, [("level", 2)]⟩] (some 740) 3).map
        LevelDistance.level).Pairwise (fun a b : ℤ => a < b) ∧
    (2 : ℤ) ∉ (query_level_min_distance QLib 15 0
        [⟨⟨10, -5, 20, 5⟩, [("level", 5)]⟩, ⟨⟨12, -3, 18, 3⟩, [("level", 7)]⟩,
         ⟨⟨200, 40, 210, 50⟩, [("level", 2)]⟩] (some 740) 3).map LevelDistance.level :=
  C6_report_sorted_and_prefilter QLib 15 0
    [⟨⟨10, -5, 20, 5⟩, [("level", 5)]⟩, ⟨⟨12, -3, 18, 3⟩, [("level", 7)]⟩,
     ⟨⟨200, 40, 210, 50⟩, [("level", 2)]⟩] (some 740) 3 740 2 (by decide)

/-- A radius-filtered outcome entry comes from a computed distance not
exceeding the radius, rounded to the configured places. -/
theorem levelOutcome_some_bound {L : GeoLib} {lon lat : ℚ} {filtered : List (Row L.G)}
    {rm : ℚ} {dp : ℕ} {lv : ℤ} {e : LevelDistance}
    (h : levelOutcome L lon lat filtered (some rm) dp lv = some e) :
    ∃ d : ℚ, ¬(rm < d) ∧ e.distance_km = roundTo (d / 1000) dp ∧
      (∃ gs ptP,
        projRows L lon lat (filtered.filter (fun r => decide (levelAttr r = some lv)))
          = some gs ∧
        L.toProj lon lat (L.mkPoint lon lat) = some ptP ∧
        d = L.distance ptP (L.unary_union (gs.map (fixG L)))) := by
  unfold levelOutcome at h
  split at h
  · cases h
  · rcases hpr : projRows L lon lat
        (filtered.filter (fun r => decide (levelAttr r = some lv))) with _ | gs <;>
      rw [hpr] at h
    · cases h
    rcases hpt : L.toProj lon lat (L.mkPoint lon lat) with _ | ptP <;> rw [hpt] at h
    · cases h
    dsimp only at h
    by_cases hc : rm < L.distance ptP (L.unary_union (gs.map (fixG L)))
    · rw [if_pos hc] at h
      cases h
    · rw [if_neg hc] at h
      cases h
      exact ⟨_, hc, rfl, gs, ptP, rfl, rfl, rfl⟩

/-- C7: with a radius, every reported distance is at most the radius up to
rounding (half an ulp of the configured decimal places), and a level whose
computed exact distance exceeds the radius is dropped from the report after
the coarse prefilter rather than reported with a clamped distance. -/
theorem C7_radius_cutoff (L : GeoLib) (lon lat : ℚ) (rows : List (Row L.G))
    (rk : ℚ) (dp : ℕ) (lv0 : ℤ) (gs : List L.G) (ptP : L.G)
    (hpt : L.toProj lon lat (L.mkPoint lon lat) = some ptP)
    (hproj : projRows L lon lat
        ((radiusFiltered L lon lat rows (some rk)).filter
          (fun r => decide (levelAttr r = some lv0))) = some gs)
    (hfar : rk * 1000 < L.distance ptP (L.unary_union (gs.map (fixG L)))) :
    (∀ e ∈ query_level_min_distance L lon lat rows (some rk) dp,
      e.distance_km ≤ rk + 1 / (2 * 10 ^ dp)) ∧
    lv0 ∉ (query_level_min_distance L lon lat rows (some rk) dp).map LevelDistance.level := by
  constructor
  · intro e he
    unfold query_level_min_distance at he
    rcases List.mem_filterMap.mp he with ⟨lv, _, hout⟩
    have hout2 : levelOutcome L lon lat (radiusFiltered L lon lat rows (some rk))
        (some (rk * 1000)) dp lv = some e := hout
    rcases levelOutcome_some_bound hout2 with ⟨d, hnlt, hdk, -⟩
    rw [hdk]
    have hd : d ≤ rk * 1000 := le_of_not_lt hnlt
    calc roundTo (d / 1000) dp
        ≤ d / 1000 + 1 / (2 * 10 ^ dp) := roundTo_le_add_half_ulp _ _
      _ ≤ rk + 1 / (2 * 10 ^ dp) := by
          have hdiv : d / 1000 ≤ rk := by linarith
          linarith
  · have hout : levelOutcome L lon lat (radiusFiltered L lon lat rows (some rk))
        ((some rk).map (fun rk2 => rk2 * 1000)) dp lv0 = none := by
      unfold levelOutcome
      split
      · rfl
      · rw [hproj, hpt]
        simp only [Option.map]
        rw [if_pos hfar]
    unfold query_level_min_distance
    exact outcome_none_not_mem _ hout

/-- C7 witness: a level-3 region containing the point and a level-5 region
1110 km east, radius 740 km — the report keeps only the in-radius entry and
level 5 is dropped by the exact cutoff despite passing the coarse
bounding-box prefilter. -/
theorem C7_witness :
    (⟨3, 0⟩ : LevelDistance).distance_km ≤ 740 + 1 / (2 * 10 ^ 3) ∧
    (5 : ℤ) ∉ (query_level_min_distance QLib 15 0
        [⟨⟨14, -1, 16, 1⟩, [("level", 3)]⟩, ⟨⟨25, -2, 30, 2⟩, [("level", 5)]⟩]
        (some 740) 3).map LevelDistance.level :=
  ⟨(C7_radius_cutoff QLib 15 0
      [⟨⟨14, -1, 16, 1⟩, [("level", 3)]⟩, ⟨⟨25, -2, 30, 2⟩, [("level", 5)]⟩]
      740 3 5 [⟨1110000, -222000, 1665000, 222000⟩] ⟨0, 0, 0, 0⟩
      (by decide) (by decide) (by decide)).1 ⟨3, 0⟩ (by decide),
   (C7_radius_cutoff QLib 15 0
      [⟨⟨14, -1, 16, 1⟩, [("level", 3)]⟩, ⟨⟨25, -2, 30, 2⟩, [("level", 5)]⟩]
      740 3 5 [⟨1110000, -222000, 1665000, 222000⟩] ⟨0, 0, 0, 0⟩
      (by decide) (by decide) (by decide)).2⟩

/-- C4 counterexample: a query at latitude 100 (outside [-90,90]) does not
fail: it runs to completion and returns a normal-shaped result structure
(in_polygon false, level None, empty distance report) because the projection
failures it provokes are swallowed by the per-unit try/except blocks and no
coordinate validation exists anywhere in the call chain. -/
theorem C4_counterexample :
    query_wind_level QLib 15 100 [⟨⟨10, -5, 20, 5⟩, [("level", 5)]⟩] none 1 3 =
      ⟨15, 100, ⟨false, none, none⟩, []⟩ := by
  decide

/-- C4 (amended): the source validates no coordinates; when the latitude is
malformed (outside [-90,90]) and the projection library consequently rejects
every transform centered there, the query still returns a complete result
with in_polygon false, level None and an empty distance report instead of
failing fast. -/
theorem C4_invalid_latitude_degrades (L : GeoLib) (lon lat : ℚ) (rows : List (Row L.G))
    (radius_km : Option ℚ) (τ : ℚ) (dp : ℕ)
    (hlat : lat < -90 ∨ 90 < lat)
    (hdir : directContaining L lon lat rows = [])
    (hrow : ∀ r ∈ rows, L.toProj lon lat r.geom = none)
    (hpt : L.toProj lon lat (L.mkPoint lon lat) = none) :
    query_wind_level_info L lon lat rows radius_km τ dp =
      ⟨lon, lat, ⟨false, none, none⟩, []⟩ := by
  have hcs : containingRows L τ lon lat rows = [] := by
    unfold containingRows
    rw [hdir]
    simp only [List.isEmpty_nil, if_true]
    unfold fallbackContaining
    rcases hpr : projRows L lon lat rows with _ | gs
    · rfl
    · rw [hpt]
  have hcls : query_point_level L lon lat rows τ = ⟨false, none, none⟩ := by
    unfold query_point_level
    rw [hcs]
  have hrep : query_level_min_distance L lon lat rows radius_km dp = [] := by
    unfold query_level_min_distance
    rw [List.filterMap_eq_nil_iff]
    intro lv _
    unfold levelOutcome
    split
    · rfl
    · rename_i hne
      rcases hfe : (radiusFiltered L lon lat rows radius_km).filter
          (fun r => decide (levelAttr r = some lv)) with _ | ⟨a, t⟩
      · rw [hfe] at hne
        exact absurd rfl hne
      · have ha : a ∈ (radiusFiltered L lon lat rows radius_km).filter
            (fun r => decide (levelAttr r = some lv)) := by
          rw [hfe]
          exact List.mem_cons_self a t
        have hamem : a ∈ rows := by
          have h1 := List.mem_of_mem_filter ha
          rcases radius_km with _ | rk
          · exact h1
          · exact (mem_radiusFiltered_some h1).1
        rw [projRows_none (List.mem_cons_self a t) (hrow a hamem)]
  unfold query_wind_level_info
  rw [hcls, hrep]

/-- C4 witness: the amended statement evaluated on a concrete store at
latitude 100 with a 740 km radius. -/
theorem C4_witness :
    query_wind_level_info QLib 15 100 [⟨⟨10, -5, 20, 5⟩, [("level", 5)]⟩] (some 740) 1 3 =
      ⟨15, 100, ⟨false, none, none⟩, []⟩ :=
  C4_invalid_latitude_degrades QLib 15 100 [⟨⟨10, -5, 20, 5⟩, [("level", 5)]⟩]
    (some 740) 1 3 (Or.inr (by norm_num)) (by decide) (by decide) (by decide)

/-- C1: zero-distance consistency.  If classification puts the point inside
(or within the boundary threshold of) a region of level lv, then — under the
projection-tolerance assumptions the source relies on (nonnegative metric,
union distance bounded by member distance, successful projection of the
level's candidates, prefilter keeping the matched rows, radius of at least
the threshold, and direct hits projecting to within the threshold) — the
distance report contains an entry for lv whose distance_km is nonnegative
and at most the boundary threshold converted to kilometers and rounded. -/
theorem C1_zero_distance_consistency (L : GeoLib) (lon lat τ : ℚ)
    (rows : List (Row L.G)) (radius_km : Option ℚ) (dp : ℕ) (lv : ℤ) (ptP : L.G)
    (hd0 : ∀ p g : L.G, 0 ≤ L.distance p g)
    (hunion : ∀ (p : L.G) (gs : List L.G) (g : L.G), g ∈ gs →
      L.distance p (L.unary_union gs) ≤ L.distance p g)
    (hpt : L.toProj lon lat (L.mkPoint lon lat) = some ptP)
    (hbridge : ∀ r ∈ rows, L.intersects r.geom (L.bufferEps (L.mkPoint lon lat)) = true →
      ∀ g, L.toProj lon lat r.geom = some g → L.distance ptP (fixG L g) ≤ τ)
    (hproj : (projRows L lon lat ((radiusFiltered L lon lat rows radius_km).filter
        (fun r => decide (levelAttr r = some lv)))).isSome = true)
    (hsurv : ∀ r ∈ containingRows L τ lon lat rows,
      r ∈ radiusFiltered L lon lat rows radius_km)
    (hrad : ∀ rk, radius_km = some rk → τ ≤ rk * 1000)
    (hin : (query_point_level L lon lat rows τ).in_polygon = true)
    (hlev : (query_point_level L lon lat rows τ).level = some lv) :
    ∃ e ∈ query_level_min_distance L lon lat rows radius_km dp,
      e.level = lv ∧ 0 ≤ e.distance_km ∧ e.distance_km ≤ roundTo (τ / 1000) dp := by
  rcases winner_of_level_some hlev with ⟨w, hwc, hwlv⟩
  have hwrows : w ∈ rows := mem_rows_of_mem_containing hwc
  have hlvmem : lv ∈ distinctLevels rows := mem_distinctLevels.mpr ⟨w, hwrows, hwlv⟩
  have hwfilt : w ∈ (radiusFiltered L lon lat rows radius_km).filter
      (fun r => decide (levelAttr r = some lv)) :=
    List.mem_filter.mpr ⟨hsurv w hwc, decide_eq_true hwlv⟩
  rcases hgs : projRows L lon lat ((radiusFiltered L lon lat rows radius_km).filter
      (fun r => decide (levelAttr r = some lv))) with _ | gs
  · rw [hgs] at hproj
    simp at hproj
  rcases projRows_mem_some hgs w hwfilt with ⟨gw, hgw_mem, hgw⟩
  have hbound : L.distance ptP (fixG L gw) ≤ τ := by
    by_cases hdir : (directContaining L lon lat rows).isEmpty = true
    · have hcseq : containingRows L τ lon lat rows = fallbackContaining L τ lon lat rows := by
        unfold containingRows
        rw [if_pos hdir]
      rw [hcseq] at hwc
      unfold fallbackContaining at hwc
      rcases hpr : projRows L lon lat rows with _ | gsAll <;> rw [hpr] at hwc
      · cases hwc
      rw [hpt] at hwc
      rcases List.mem_map.mp hwc with ⟨pr, hpr2, hpre⟩
      have hzip := List.mem_of_mem_filter hpr2
      have hdlt := (List.mem_filter.mp hpr2).2
      rw [List.zip_map_right] at hzip
      rcases List.mem_map.mp hzip with ⟨⟨a0, b0⟩, hpr0, hpr0e⟩
      cases hpr0e
      have hproj0 : L.toProj lon lat a0.geom = some b0 := projRows_zip hpr (a0, b0) hpr0
      have haw : a0 = w := hpre
      rw [haw, hgw] at hproj0
      cases hproj0
      exact le_of_lt (of_decide_eq_true hdlt)
    · have hcseq : containingRows L τ lon lat rows = directContaining L lon lat rows := by
        unfold containingRows
        rw [if_neg hdir]
      rw [hcseq] at hwc
      have hint := (List.mem_filter.mp hwc).2
      exact hbridge w hwrows hint gw hgw
  have hdu : L.distance ptP (L.unary_union (gs.map (fixG L))) ≤ τ :=
    le_trans (hunion ptP (gs.map (fixG L)) (fixG L gw)
      (List.mem_map_of_mem (fixG L) hgw_mem)) hbound
  have hout : levelOutcome L lon lat (radiusFiltered L lon lat rows radius_km)
      (radius_km.map (fun rk => rk * 1000)) dp lv =
      some ⟨lv, roundTo (L.distance ptP (L.unary_union (gs.map (fixG L))) / 1000) dp⟩ := by
    unfold levelOutcome
    rw [if_neg (fun hc => (List.ne_nil_of_mem hwfilt) (List.isEmpty_iff.mp hc))]
    rw [hgs, hpt]
    dsimp only
    rcases radius_km with _ | rk
    · simp only [Option.map]
    · simp only [Option.map]
      rw [if_neg (not_lt.mpr (le_trans hdu (hrad rk rfl)))]
  refine ⟨⟨lv, roundTo (L.distance ptP (L.unary_union (gs.map (fixG L))) / 1000) dp⟩,
    ?_, rfl, ?_, ?_⟩
  · unfold query_level_min_distance
    exact List.mem_filterMap.mpr ⟨lv, hlvmem, hout⟩
  · exact roundTo_nonneg dp (div_nonneg (hd0 _ _) (by norm_num))
  · refine roundTo_mono dp ?_
    exact (div_le_div_iff_of_pos_right (by norm_num : (0:ℚ) < 1000)).mpr hdu

/-- C1 witness: a point strictly inside the single level-5 region, radius
740 km, threshold 1 m — the report carries an entry for level 5 with
distance_km between 0 and 0.001. -/
theorem C1_witness :
    ∃ e ∈ query_level_min_distance QLib 15 0
        [⟨⟨10, -5, 20, 5⟩, [("level", 5)]⟩] (some 740) 3,
      e.level = 5 ∧ 0 ≤ e.distance_km ∧ e.distance_km ≤ roundTo (1 / 1000) 3 :=
  C1_zero_distance_consistency QLib 15 0 1 [⟨⟨10, -5, 20, 5⟩, [("level", 5)]⟩]
    (some 740) 3 5 ⟨0, 0, 0, 0⟩ qlib_dist_nonneg qlib_union_le (by decide)
    (by decide) (by decide) (by decide) (by decide) (by decide) (by decide)
